import Mathlib

/-!
Shallow embedding of the segmented deque in src/include/deque/deque.h.

Modelling conventions:
* A raw element pointer (`T*`) is a pair `(segment id, offset)`; the offset is
  an `Int` because the C++ code performs pointer arithmetic that can step
  outside a segment.  Distinct heap allocations never alias, so two pointers
  are equal exactly when their pairs are equal.
* Segment id `0` is never allocated (`nextSeg` starts at `1`).  Reading an
  uninitialized or out-of-range Block Index slot yields the deterministic
  poison pointer `(0, 0)` and raises the `ub` flag: the C++ there reads an
  indeterminate value, which is undefined behaviour.  Every theorem that
  depends on behaviour after `ub` becomes true is only used as evidence of a
  divergence between code and spec, never to certify post-UB behaviour.
* The Block Index (`map_`) is a `List (Option Ptr)` of length `map_size_`;
  `none` marks a slot the program never wrote (uninitialized memory).
* Element storage is the association list `segs : List (Nat × List (Option α))`;
  a `construct` outside every live segment raises `ub` and records nothing.
* `allocCalls` counts every call to the allocator (Block Index and segment
  allocations alike); the `E`-suffixed operations let one designated call
  fail, modelling a propagating allocation-failure exception exactly at the
  point the C++ `allocate` would throw.
-/

set_option autoImplicit false
set_option maxRecDepth 4000000

namespace CppDeque

/-- A raw `T*`: segment id paired with an element offset. -/
abbrev Ptr : Type := Nat × Int

/-- Embedding of `deque_iterator`: `curr`, `first`, `last` are raw pointers,
`node` is the index the `pointer*` member denotes into the Block Index. -/
structure Iter where
  curr : Ptr := (0, 0)
  first : Ptr := (0, 0)
  last : Ptr := (0, 0)
  node : Int := 0
deriving DecidableEq

/-- The full state of a `deque<T>` object together with the allocator ghost
state needed to observe leaks, out-of-bounds writes and allocation counts. -/
structure DState (α : Type) where
  map : List (Option Ptr)
  numSegments : Nat
  start : Iter
  finish : Iter
  segs : List (Nat × List (Option α))
  liveSegs : List Nat
  nextSeg : Nat
  allocCalls : Nat
  ub : Bool
deriving DecidableEq

/-- Reading Block Index slot `i` (the dereference `*new_node`): `none` when
the slot is out of range or was never written — an uninitialized read. -/
def mapRead (m : List (Option Ptr)) (i : Int) : Option Ptr :=
  if 0 ≤ i ∧ i < (m.length : Int) then m.getD i.toNat none else none

variable {α : Type}

/-- `deque_iterator::set_node`: re-anchor the iterator at Block Index slot
`n`, setting `first` to the stored segment pointer and `last` to
`first + block_size`.  An uninitialized read yields the poison pointer and
reports `ub`. -/
def setNodeIt (B : Nat) (m : List (Option Ptr)) (it : Iter) (n : Int) :
    Iter × Bool :=
  match mapRead m n with
  | some p => ({ it with node := n, first := p, last := (p.1, p.2 + B) }, false)
  | none => ({ it with node := n, first := (0, 0), last := (0, (B : Int)) }, true)

/-- `deque_iterator::operator++`: advance `curr`; if it reaches `last`,
re-anchor eagerly at the next Block Index slot and reset `curr` to `first`. -/
def incIt (B : Nat) (m : List (Option Ptr)) (it : Iter) : Iter × Bool :=
  let c : Ptr := (it.curr.1, it.curr.2 + 1)
  if c = it.last then
    let r := setNodeIt B m { it with curr := c } (it.node + 1)
    ({ r.1 with curr := r.1.first }, r.2)
  else ({ it with curr := c }, false)

/-- `deque_iterator::operator--`: if `curr` is at `first`, re-anchor at the
previous Block Index slot with `curr = last`; then step `curr` back by one. -/
def decIt (B : Nat) (m : List (Option Ptr)) (it : Iter) : Iter × Bool :=
  if it.curr = it.first then
    let r := setNodeIt B m it (it.node - 1)
    ({ r.1 with curr := (r.1.last.1, r.1.last.2 - 1) }, r.2)
  else ({ it with curr := (it.curr.1, it.curr.2 - 1) }, false)

/-- Iterate `operator++` `n` times (discarding the ub report of each step). -/
def incN (B : Nat) (m : List (Option Ptr)) : Nat → Iter → Iter
  | 0, it => it
  | n + 1, it => incN B m n (incIt B m it).1

/-- `allocate_segment` (state part): register a fresh block of `block_size`
uninitialized element slots and count the allocator call.  The returned
pointer is `(s.nextSeg, 0)`. -/
def allocState (B : Nat) (s : DState α) : DState α :=
  { s with segs := (s.nextSeg, List.replicate B none) :: s.segs,
           liveSegs := s.nextSeg :: s.liveSegs,
           nextSeg := s.nextSeg + 1,
           allocCalls := s.allocCalls + 1 }

/-- `resize_map(newSize)`: allocate a fresh index, copy slots
`0 .. num_segments_ - 1` in order, release the old index.  Slots past
`num_segments_` in the new index are uninitialized (`none`). -/
def resizeMap (s : DState α) (newSize : Nat) : DState α :=
  { s with map := (List.range newSize).map
             (fun i => if i < s.numSegments then s.map.getD i none else none),
           allocCalls := s.allocCalls + 1 }

/-- The conditional growth step shared by `push_back` and `push_front`:
`if (num_segments_ + 1 >= map_size_) resize_map(map_size_ * 2);`. -/
def grown (s : DState α) : DState α :=
  if s.numSegments + 1 ≥ s.map.length then resizeMap s (s.map.length * 2) else s

/-- The shift loop of `push_front`:
`for (i = num_segments_; i > 0; --i) map_[i] = map_[i-1];`. -/
def shiftRight (m : List (Option Ptr)) (n : Nat) : List (Option Ptr) :=
  (List.range m.length).map
    (fun i => if 1 ≤ i ∧ i ≤ n then m.getD (i - 1) none else m.getD i none)

/-- `allocator_traits::construct(seg_alloc_, p, v)`: write `v` through `p`.
A write outside every live segment is undefined behaviour: it raises `ub`
and the model does not track what the corrupted memory holds. -/
def construct (B : Nat) (s : DState α) (p : Ptr) (v : α) : DState α :=
  if p.1 ∈ s.liveSegs ∧ 0 ≤ p.2 ∧ p.2 < (B : Int) then
    let w := s.segs.map
      (fun e => if e.1 = p.1 then (e.1, e.2.set p.2.toNat (some v)) else e)
    { s with segs := w }
  else { s with ub := true }

/-- Read the element a pointer denotes; `none` outside live storage or when
the slot was never constructed. -/
def readVal (B : Nat) (s : DState α) (p : Ptr) : Option α :=
  if p.1 ∈ s.liveSegs ∧ 0 ≤ p.2 ∧ p.2 < (B : Int) then
    (s.segs.lookup p.1).bind (fun l => l.getD p.2.toNat none)
  else none

/-- The new-segment branch of `push_back`: grow the index if needed, place a
fresh segment at slot `num_segments_`, re-anchor `finish` there, and bump
`num_segments_`. -/
def backGrow (B : Nat) (s : DState α) : DState α :=
  let s1 := grown s
  let p : Ptr := (s1.nextSeg, 0)
  let s2 := allocState B s1
  let s3 := { s2 with map := s2.map.set s2.numSegments (some p) }
  let r := setNodeIt B s3.map s3.finish (s3.numSegments : Int)
  let f := { r.1 with curr := r.1.first }
  { s3 with finish := f, numSegments := s3.numSegments + 1, ub := s3.ub || r.2 }

/-- `deque::push_back`: take the new-segment branch when
`finish_.curr == finish_.last`, construct the value at `finish_.curr`, then
`++finish_`. -/
def pushBack (B : Nat) (s : DState α) (v : α) : DState α :=
  let s1 := if s.finish.curr = s.finish.last then backGrow B s else s
  let s2 := construct B s1 s1.finish.curr v
  let r := incIt B s2.map s2.finish
  { s2 with finish := r.1, ub := s2.ub || r.2 }

/-- The new-segment branch of `push_front`: grow the index if needed, shift
every occupied slot one to the right, place a fresh segment at slot `0`,
bump `num_segments_`, and re-anchor `start` at slot `0` with
`curr = last`. -/
def frontGrow (B : Nat) (s : DState α) : DState α :=
  let s1 := grown s
  let s2 := { s1 with map := shiftRight s1.map s1.numSegments }
  let p : Ptr := (s2.nextSeg, 0)
  let s3 := allocState B s2
  let s4 := { s3 with map := s3.map.set 0 (some p),
                      numSegments := s3.numSegments + 1 }
  let r := setNodeIt B s4.map s4.start 0
  let st := { r.1 with curr := r.1.last }
  { s4 with start := st, ub := s4.ub || r.2 }

/-- `deque::push_front`: take the new-segment branch when
`start_.curr == start_.first`, then `--start_` and construct the value at
`start_.curr`. -/
def pushFront (B : Nat) (s : DState α) (v : α) : DState α :=
  let s1 := if s.start.curr = s.start.first then frontGrow B s else s
  let r := decIt B s1.map s1.start
  let s2 := { s1 with start := r.1, ub := s1.ub || r.2 }
  construct B s2 s2.start.curr v

/-- `deque::deque()`: reserve an 8-slot Block Index (allocator call 0; the
other 7 slots stay uninitialized), allocate one segment into slot `0`, anchor
`start_` there and copy it to `finish_`.  Note the source never increments
`num_segments_` here: it stays `0`. -/
def dequeNew (B : Nat) : DState α :=
  let s : DState α :=
    { map := List.replicate 8 none, numSegments := 0,
      start := {}, finish := {},
      segs := [], liveSegs := [], nextSeg := 1, allocCalls := 1, ub := false }
  let p : Ptr := (s.nextSeg, 0)
  let s1 := allocState B s
  let s2 := { s1 with map := s1.map.set 0 (some p) }
  let r := setNodeIt B s2.map s2.start 0
  let st := { r.1 with curr := r.1.first }
  { s2 with start := st, finish := st, ub := s2.ub || r.2 }

/-- `allocator_traits::deallocate` of the segment a Block Index slot holds:
freeing anything but a pointer previously returned by `allocate_segment`
(and still live) is undefined behaviour. -/
def deallocSeg (s : DState α) (p : Option Ptr) : DState α :=
  match p with
  | some q =>
      if q.2 = 0 ∧ q.1 ∈ s.liveSegs then
        { s with liveSegs := s.liveSegs.erase q.1 }
      else { s with ub := true }
  | none => { s with ub := true }

/-- `deque::clear`: deallocate the segments held in slots
`0 .. num_segments_ - 1` and reset `num_segments_` to `0`.  The source
destroys no element and touches no other slot. -/
def clearD (s : DState α) : DState α :=
  let s1 := (List.range s.numSegments).foldl
    (fun t i => deallocSeg t (t.map.getD i none)) s
  { s1 with numSegments := 0 }

/-- Outstanding segment allocations after `~deque()` runs (`clear()` then
deallocation of the Block Index storage, which the destructor does free). -/
def destructorOutstanding (s : DState α) : Nat := (clearD s).liveSegs.length

/-- One public mutation. -/
inductive Op (α : Type) where
  | pb (v : α)
  | pf (v : α)
deriving DecidableEq

/-- Apply one mutation. -/
def stepD (B : Nat) (s : DState α) : Op α → DState α
  | Op.pb v => pushBack B s v
  | Op.pf v => pushFront B s v

/-- Run a call sequence from a default-constructed deque. -/
def runD (B : Nat) (ops : List (Op α)) : DState α :=
  ops.foldl (stepD B) (dequeNew B)

/-- States reachable from default construction by `push_back`/`push_front`
calls. -/
def Reachable (B : Nat) (s : DState α) : Prop :=
  ∃ ops : List (Op α), s = runD B ops

/-- Forward iteration from `it` collecting dereferenced values until the
cursor compares equal to `fin` (the `operator!=` of the source compares
`curr` only); `none` when `fin` is not reached within the given fuel. -/
def collect (B : Nat) (s : DState α) (fin : Ptr) :
    Nat → Iter → Option (List (Option α))
  | 0, it => if it.curr = fin then some [] else none
  | f + 1, it =>
      if it.curr = fin then some []
      else (collect B s fin f (incIt B s.map it).1).map
             (fun l => readVal B s it.curr :: l)

/-- `deque::block_size` as a function of `sizeof(T)`:
`(sizeof(T) < 256) ? 4096 / sizeof(T) : 16`. -/
def blockSizeOf (s : Nat) : Nat := if s < 256 then 4096 / s else 16

/-- `resize_map` when the allocator may throw: the fresh-index allocation is
the very first action, so on failure (allocator call number `fa`) the
exception propagates with the state untouched. -/
def resizeMapE (fa : Nat) (s : DState α) (newSize : Nat) :
    Except (DState α) (DState α) :=
  if s.allocCalls = fa then Except.error { s with allocCalls := s.allocCalls + 1 }
  else Except.ok (resizeMap s newSize)

/-- The new-segment branch of `push_front` when the allocator may throw:
faithful to the source order — conditional `resize_map`, then the shift
loop, then `allocate_segment`.  An exception unwinds with exactly the
mutations performed before the throwing call. -/
def frontGrowE (B : Nat) (fa : Nat) (s : DState α) :
    Except (DState α) (DState α) :=
  let g :=
    if s.numSegments + 1 ≥ s.map.length then resizeMapE fa s (s.map.length * 2)
    else Except.ok s
  match g with
  | Except.error t => Except.error t
  | Except.ok s1 =>
      let s2 := { s1 with map := shiftRight s1.map s1.numSegments }
      if s2.allocCalls = fa then
        Except.error { s2 with allocCalls := s2.allocCalls + 1 }
      else
        let p : Ptr := (s2.nextSeg, 0)
        let s3 := allocState B s2
        let s4 := { s3 with map := s3.map.set 0 (some p),
                            numSegments := s3.numSegments + 1 }
        let r := setNodeIt B s4.map s4.start 0
        let st := { r.1 with curr := r.1.last }
        Except.ok { s4 with start := st, ub := s4.ub || r.2 }

/-- `deque::push_front` when allocator call number `fa` throws; the code
after the branch performs no allocation, so it cannot fail. -/
def pushFrontE (B : Nat) (fa : Nat) (s : DState α) (v : α) :
    Except (DState α) (DState α) :=
  match (if s.start.curr = s.start.first then frontGrowE B fa s
         else Except.ok s) with
  | Except.error t => Except.error t
  | Except.ok s1 =>
      let r := decIt B s1.map s1.start
      let s2 := { s1 with start := r.1, ub := s1.ub || r.2 }
      Except.ok (construct B s2 s2.start.curr v)

/-- Project the state carried by a propagated exception. -/
def errState : Except (DState α) (DState α) → Option (DState α)
  | Except.error t => some t
  | Except.ok _ => none

/-- The concrete scenario of §8 of the spec:
`push_back(1); push_back(2); push_back(3); push_front(0)` on `int`
(`block_size` taken as 16). -/
def c1st : DState Nat :=
  pushFront 16 (pushBack 16 (pushBack 16 (pushBack 16 (dequeNew 16) 1) 2) 3) 0

/-- `block_size + 1 = 17` push_backs (element size 256, `block_size = 16`). -/
def c2st : DState Nat :=
  (List.range 17).foldl (fun s i => pushBack 16 s (i + 1)) (dequeNew 16)

/-- A single `push_back(7)` (used for the clear claim). -/
def c4st : DState Nat := pushBack 16 (dequeNew 16) 7

/-- `2 * block_size = 32` push_fronts: leaves `start` at its segment start
with two occupied index slots, so the next `push_front` takes the
new-segment branch. -/
def c5st : DState Nat :=
  (List.range 32).foldl (fun s i => pushFront 16 s i) (dequeNew 16)

/-- `push_back(1); push_front(0)`: a two-element deque. -/
def c7st : DState Nat := pushFront 16 (pushBack 16 (dequeNew 16) 1) 0

/-- `block_size - 1 = 15` push_backs: `finish` sits one slot before its
segment-end bound. -/
def c9st : DState Nat :=
  (List.range 15).foldl (fun s i => pushBack 16 s (i + 1)) (dequeNew 16)

/-! Projection lemmas: which state fields each helper leaves unchanged. -/

@[simp] theorem construct_map (B : Nat) (s : DState α) (p : Ptr) (v : α) :
    (construct B s p v).map = s.map := by
  unfold construct; split <;> rfl

@[simp] theorem construct_numSegments (B : Nat) (s : DState α) (p : Ptr) (v : α) :
    (construct B s p v).numSegments = s.numSegments := by
  unfold construct; split <;> rfl

@[simp] theorem construct_start (B : Nat) (s : DState α) (p : Ptr) (v : α) :
    (construct B s p v).start = s.start := by
  unfold construct; split <;> rfl

@[simp] theorem construct_finish (B : Nat) (s : DState α) (p : Ptr) (v : α) :
    (construct B s p v).finish = s.finish := by
  unfold construct; split <;> rfl

@[simp] theorem construct_liveSegs (B : Nat) (s : DState α) (p : Ptr) (v : α) :
    (construct B s p v).liveSegs = s.liveSegs := by
  unfold construct; split <;> rfl

@[simp] theorem construct_nextSeg (B : Nat) (s : DState α) (p : Ptr) (v : α) :
    (construct B s p v).nextSeg = s.nextSeg := by
  unfold construct; split <;> rfl

@[simp] theorem resizeMap_numSegments (s : DState α) (n : Nat) :
    (resizeMap s n).numSegments = s.numSegments := rfl

@[simp] theorem resizeMap_length (s : DState α) (n : Nat) :
    (resizeMap s n).map.length = n := by
  simp [resizeMap]

@[simp] theorem shiftRight_length (m : List (Option Ptr)) (n : Nat) :
    (shiftRight m n).length = m.length := by
  simp [shiftRight]

@[simp] theorem grown_numSegments (s : DState α) :
    (grown s).numSegments = s.numSegments := by
  unfold grown; split <;> rfl

theorem grown_length (s : DState α) :
    (grown s).map.length =
      if s.numSegments + 1 ≥ s.map.length then s.map.length * 2
      else s.map.length := by
  unfold grown; split <;> simp

/-- The index-occupancy invariant of every reachable state: at most
`map_size - 1` slots are occupied, and the index has positive capacity. -/
def GoodIdx (s : DState α) : Prop :=
  s.numSegments + 1 ≤ s.map.length ∧ 1 ≤ s.map.length

theorem goodIdx_new (B : Nat) : GoodIdx (dequeNew B : DState α) := by
  constructor <;> simp [dequeNew, allocState, setNodeIt]

theorem pushBack_numSegments (B : Nat) (s : DState α) (v : α) :
    (pushBack B s v).numSegments =
      if s.finish.curr = s.finish.last then s.numSegments + 1
      else s.numSegments := by
  unfold pushBack backGrow
  split <;> simp [allocState]

theorem pushBack_length (B : Nat) (s : DState α) (v : α) :
    (pushBack B s v).map.length =
      if s.finish.curr = s.finish.last then (grown s).map.length
      else s.map.length := by
  unfold pushBack backGrow
  split <;> simp [allocState]

theorem pushFront_numSegments (B : Nat) (s : DState α) (v : α) :
    (pushFront B s v).numSegments =
      if s.start.curr = s.start.first then s.numSegments + 1
      else s.numSegments := by
  unfold pushFront frontGrow
  split <;> simp [allocState]

theorem pushFront_length (B : Nat) (s : DState α) (v : α) :
    (pushFront B s v).map.length =
      if s.start.curr = s.start.first then (grown s).map.length
      else s.map.length := by
  unfold pushFront frontGrow
  split <;> simp [allocState]

theorem goodIdx_grown (s : DState α) (h : GoodIdx s) :
    (grown s).numSegments + 1 < (grown s).map.length ∧
      1 ≤ (grown s).map.length := by
  obtain ⟨h1, h2⟩ := h
  rw [grown_length, grown_numSegments]
  split <;> omega

theorem goodIdx_pushBack (B : Nat) (s : DState α) (v : α) (h : GoodIdx s) :
    GoodIdx (pushBack B s v) := by
  obtain ⟨hg1, hg2⟩ := goodIdx_grown s h
  rw [grown_numSegments] at hg1
  obtain ⟨h1, h2⟩ := h
  constructor
  · rw [pushBack_numSegments, pushBack_length]; split <;> omega
  · rw [pushBack_length]; split <;> omega

theorem goodIdx_pushFront (B : Nat) (s : DState α) (v : α) (h : GoodIdx s) :
    GoodIdx (pushFront B s v) := by
  obtain ⟨hg1, hg2⟩ := goodIdx_grown s h
  rw [grown_numSegments] at hg1
  obtain ⟨h1, h2⟩ := h
  constructor
  · rw [pushFront_numSegments, pushFront_length]; split <;> omega
  · rw [pushFront_length]; split <;> omega

theorem goodIdx_foldl (B : Nat) (ops : List (Op α)) (s : DState α)
    (h : GoodIdx s) : GoodIdx (ops.foldl (stepD B) s) := by
  induction ops generalizing s with
  | nil => exact h
  | cons op ops ih =>
      refine ih _ ?_
      cases op with
      | pb v => exact goodIdx_pushBack B s v h
      | pf v => exact goodIdx_pushFront B s v h

theorem goodIdx_reachable (B : Nat) (s : DState α) (h : Reachable B s) :
    GoodIdx s := by
  obtain ⟨ops, rfl⟩ := h
  exact goodIdx_foldl B ops _ (goodIdx_new B)



/-! Claim theorems. -/

/-- The all-zero iterator value (every pointer field null). -/
def iter0 : Iter := {}

/-- C6: on every reachable state, the grow step is the source's literal
condition (`num_segments_ + 1 >= map_size_` triggers the doubling
`resize_map`, otherwise the state is untouched), and after the conditional
grow — i.e. at the moment a segment reference is added in either push
branch — one slack slot is reserved: `num_segments + 1 < map_size`. -/
theorem C6_slack_invariant (B : Nat) (s : DState α) (h : Reachable B s) :
    (s.numSegments + 1 < s.map.length → grown s = s) ∧
      (grown s).numSegments + 1 < (grown s).map.length := by
  obtain ⟨h1, h2⟩ := goodIdx_reachable B s h
  constructor
  · intro hlt
    unfold grown
    rw [if_neg (by omega)]
  · have := goodIdx_grown s ⟨h1, h2⟩
    rw [grown_numSegments]
    rw [grown_numSegments] at this
    exact this.1

/-- C6 witness: the default-constructed deque is reachable (empty call
sequence) and satisfies the slack property. -/
theorem C6_slack_invariant_witness :
    Reachable 16 (dequeNew 16 : DState Nat) ∧
      (((dequeNew 16 : DState Nat).numSegments + 1 <
            (dequeNew 16 : DState Nat).map.length →
          grown (dequeNew 16 : DState Nat) = dequeNew 16) ∧
        (grown (dequeNew 16 : DState Nat)).numSegments + 1 <
          (grown (dequeNew 16 : DState Nat)).map.length) :=
  ⟨⟨[], rfl⟩, C6_slack_invariant 16 (dequeNew 16) ⟨[], rfl⟩⟩

/-- C8: for every element size at least 1, `block_size` equals
`max(4096 / sizeof(T), 16)` below 256 bytes, equals 16 at or above 256
bytes, and is at least 16 in every case. -/
theorem C8_block_size_formula (s : Nat) (hs : 1 ≤ s) :
    (s < 256 → blockSizeOf s = max (4096 / s) 16) ∧
      (256 ≤ s → blockSizeOf s = 16) ∧ 16 ≤ blockSizeOf s := by
  unfold blockSizeOf
  by_cases h : s < 256
  · have h16 : 16 ≤ 4096 / s := by
      rw [Nat.le_div_iff_mul_le (by omega)]
      omega
    refine ⟨fun _ => ?_, fun hh => absurd hh (by omega), ?_⟩
    · rw [if_pos h, max_eq_left h16]
    · rw [if_pos h]
      exact h16
  · exact ⟨fun hh => absurd hh h, fun _ => by rw [if_neg h], by rw [if_neg h]⟩

/-- C8 witness: instantiated at `sizeof(T) = 8`. -/
theorem C8_block_size_formula_witness :
    1 ≤ 8 ∧ ((8 < 256 → blockSizeOf 8 = max (4096 / 8) 16) ∧
      (256 ≤ 8 → blockSizeOf 8 = 16) ∧ 16 ≤ blockSizeOf 8) :=
  ⟨by decide, C8_block_size_formula 8 (by decide)⟩

/-- C10: `operator++` crosses eagerly — after any increment the cursor
never rests at its segment-end bound, and when the advanced position
reaches the bound the iterator has re-anchored at the next index slot with
`curr` at that segment's start. -/
theorem C10_eager_boundary_crossing (B : Nat) (m : List (Option Ptr))
    (it : Iter) (hB : 0 < B) :
    (incIt B m it).1.curr ≠ (incIt B m it).1.last ∧
      ((it.curr.1, it.curr.2 + 1) = it.last →
        (incIt B m it).1.node = it.node + 1 ∧
          (incIt B m it).1.curr = (incIt B m it).1.first) := by
  unfold incIt setNodeIt
  by_cases h : ((it.curr.1, it.curr.2 + 1) : Ptr) = it.last
  · cases hm : mapRead m (it.node + 1) <;>
      simp [h, hm, Prod.ext_iff] <;> omega
  · simp [h]

/-- C10 witness: instantiated at `block_size = 16` with an empty index and
the default iterator. -/
theorem C10_eager_boundary_crossing_witness :
    0 < 16 ∧
      ((incIt 16 [] iter0).1.curr ≠
          (incIt 16 [] iter0).1.last ∧
        ((iter0.curr.1, iter0.curr.2 + 1) =
            iter0.last →
          (incIt 16 [] iter0).1.node = iter0.node + 1 ∧
            (incIt 16 [] iter0).1.curr =
              (incIt 16 [] iter0).1.first)) :=
  ⟨by decide, C10_eager_boundary_crossing 16 [] iter0 (by decide)⟩

/-- C9 counterexample: after `block_size - 1 = 15` push_backs the finish
cursor is strictly inside its segment (`curr != last`), yet one more
`push_back` does not advance `curr` by one — the eager `++finish_` crossing
re-anchors it through the uninitialized index slot 1 instead. -/
theorem C9_advance_by_one_counterexample :
    c9st.finish.curr ≠ c9st.finish.last ∧
      (pushBack 16 c9st 99).finish.curr ≠
        (c9st.finish.curr.1, c9st.finish.curr.2 + 1) := by
  constructor <;> decide

/-- C9 amended: when `finish.curr != finish.last`, `push_back` leaves the
Block Index, its capacity, `num_segments_`, the start cursor and the
allocator state unchanged and only constructs the element and increments
`finish`; the incremented cursor has `curr` advanced by one exactly when
the advanced position has not reached the segment-end bound (otherwise the
increment re-anchors `finish` into the next index slot). -/
theorem C9_push_back_frame (B : Nat) (s : DState α) (v : α)
    (h : s.finish.curr ≠ s.finish.last) :
    (pushBack B s v).map = s.map ∧
      (pushBack B s v).numSegments = s.numSegments ∧
      (pushBack B s v).start = s.start ∧
      (pushBack B s v).liveSegs = s.liveSegs ∧
      (pushBack B s v).nextSeg = s.nextSeg ∧
      (pushBack B s v).finish = (incIt B s.map s.finish).1 ∧
      ((s.finish.curr.1, s.finish.curr.2 + 1) ≠ s.finish.last →
        (pushBack B s v).finish =
          { s.finish with curr := (s.finish.curr.1, s.finish.curr.2 + 1) }) := by
  unfold pushBack
  rw [if_neg h]
  refine ⟨by simp, by simp, by simp, by simp, by simp, by simp, ?_⟩
  intro h2
  simp only [construct_map, construct_finish]
  unfold incIt
  rw [if_neg h2]

/-- C9 witness: the frame property applied to the freshly constructed
deque, whose finish cursor is strictly inside its segment. -/
theorem C9_push_back_frame_witness :
    (dequeNew 16 : DState Nat).finish.curr ≠
        (dequeNew 16 : DState Nat).finish.last ∧
      ((pushBack 16 (dequeNew 16) 5).map = (dequeNew 16 : DState Nat).map ∧
        (pushBack 16 (dequeNew 16) 5).numSegments =
          (dequeNew 16 : DState Nat).numSegments ∧
        (pushBack 16 (dequeNew 16) 5).start = (dequeNew 16 : DState Nat).start ∧
        (pushBack 16 (dequeNew 16) 5).liveSegs =
          (dequeNew 16 : DState Nat).liveSegs ∧
        (pushBack 16 (dequeNew 16) 5).nextSeg =
          (dequeNew 16 : DState Nat).nextSeg ∧
        (pushBack 16 (dequeNew 16) 5).finish =
          (incIt 16 (dequeNew 16 : DState Nat).map
            (dequeNew 16 : DState Nat).finish).1 ∧
        (((dequeNew 16 : DState Nat).finish.curr.1,
            (dequeNew 16 : DState Nat).finish.curr.2 + 1) ≠
              (dequeNew 16 : DState Nat).finish.last →
          (pushBack 16 (dequeNew 16) 5).finish =
            { (dequeNew 16 : DState Nat).finish with
                curr := ((dequeNew 16 : DState Nat).finish.curr.1,
                  (dequeNew 16 : DState Nat).finish.curr.2 + 1) })) :=
  ⟨by decide, C9_push_back_frame 16 (dequeNew 16) 5 (by decide)⟩

/-- C2 evaluation: pushing `block_size + 1 = 17` values into a fresh deque
(element size 256) performs no segment allocation beyond the one made at
construction — the new-segment branch of `push_back` is unreachable — and
the final `construct` writes outside every allocated segment (undefined
behaviour), so the claimed second allocation and the in-order retrievability
both fail. -/
theorem C2_no_second_segment_allocation :
    c2st.allocCalls = 2 ∧ c2st.liveSegs = [1] ∧ c2st.numSegments = 0 ∧
      c2st.ub = true := by
  refine ⟨by decide, by decide, by decide, by decide⟩

/-- C3 evaluation: default-constructing a deque and immediately destroying
it leaks the construction-time segment: `clear()` frees only slots
`0 .. num_segments_ - 1` and `num_segments_` is still `0`, so one segment
allocation is outstanding after destruction, not zero. -/
theorem C3_initial_segment_leaked :
    destructorOutstanding (dequeNew 16 : DState Nat) = 1 := by decide

/-- C4 evaluation: after `push_back(7)`, `clear()` destroys no element (the
value is still constructed in live storage afterwards) and releases no
segment (`num_segments_` was never incremented, so the loop frees nothing
even though slot 0 references a segment); only `num_segments = 0` holds. -/
theorem C4_clear_destroys_nothing :
    (clearD c4st).numSegments = 0 ∧ (clearD c4st).liveSegs = [1] ∧
      readVal 16 (clearD c4st) (1, 0) = some 7 := by
  refine ⟨by decide, by decide, by decide⟩

/-- C7 evaluation: after `push_back(1); push_front(0)` the deque holds two
elements, but two increments from the start cursor do not reach the finish
cursor — the first increment crosses into uninitialized index slot 1
(undefined behaviour) and lands in the poison segment. -/
theorem C7_size_increments_miss_finish :
    (incN 16 c7st.map 2 c7st.start).curr ≠ c7st.finish.curr ∧
      (incIt 16 c7st.map c7st.start).2 = true := by
  refine ⟨by decide, by decide⟩

/-- C5 evaluation: after `2 * block_size = 32` push_fronts the next
`push_front` takes the new-segment branch with two occupied slots; its
segment allocation (allocator call 4) fails after the shift loop already
ran, so the propagated exception leaves the visible Block Index mutated —
slots 0‥1 read `[segment 3, segment 3]` instead of the previous
`[segment 3, segment 2]` — while `num_segments_` and the two cursors are
unchanged. -/
theorem C5_failed_alloc_mutates_index :
    (errState (pushFrontE 16 4 c5st 99)).map DState.numSegments = some 2 ∧
      (errState (pushFrontE 16 4 c5st 99)).map (fun t => t.map.take 2) =
        some [some (3, 0), some (3, 0)] ∧
      c5st.map.take 2 = [some (3, 0), some (2, 0)] ∧
      (errState (pushFrontE 16 4 c5st 99)).map DState.start = some c5st.start ∧
      (errState (pushFrontE 16 4 c5st 99)).map DState.finish =
        some c5st.finish := by
  refine ⟨by decide, by decide, by decide, by decide, by decide⟩

/-- If a collected forward iteration has at least two entries and neither of
the first two cursor positions compares equal to the end cursor, the second
entry is the value read at the once-incremented cursor. -/
theorem collect_second (B : Nat) (s : DState α) (fin : Ptr) (f : Nat)
    (it : Iter) (h1 : it.curr ≠ fin) (h2 : (incIt B s.map it).1.curr ≠ fin)
    (a b : Option α) (t : List (Option α))
    (hc : collect B s fin f it = some (a :: b :: t)) :
    b = readVal B s (incIt B s.map it).1.curr := by
  match f with
  | 0 => simp [collect, if_neg h1] at hc
  | 1 => simp [collect, if_neg h1, if_neg h2] at hc
  | (n + 2) =>
      rw [collect, if_neg h1] at hc
      obtain ⟨l1, hl1, hcons1⟩ := Option.map_eq_some'.mp hc
      rw [collect, if_neg h2] at hl1
      obtain ⟨l2, _, hcons2⟩ := Option.map_eq_some'.mp hl1
      rw [← hcons2] at hcons1
      exact (List.cons.injEq _ _ _ _).mp
        ((List.cons.injEq _ _ _ _).mp hcons1).2 |>.1.symm

/-- C1 evaluation: in the spec scenario
`push_back(1); push_back(2); push_back(3); push_front(0)`, forward
iteration from start to finish cannot yield `[0, 1, 2, 3]` for any amount
of stepping: the second visited position lies in the poison segment reached
through uninitialized index slot 1 (undefined behaviour on the first
boundary crossing), and the iteration does not even terminate at the finish
cursor within 50 steps for a 4-element deque. -/
theorem C1_push_front_breaks_iteration :
    (∀ (f : Nat) (t : List (Option Nat)),
        collect 16 c1st c1st.finish.curr f c1st.start ≠
          some (some 0 :: some 1 :: t)) ∧
      collect 16 c1st c1st.finish.curr 50 c1st.start = none ∧
      (incIt 16 c1st.map c1st.start).2 = true := by
  refine ⟨?_, by decide, by decide⟩
  intro f t hc
  have hb := collect_second 16 c1st c1st.finish.curr f c1st.start
    (by decide) (by decide) (some 0) (some 1) t hc
  rw [show readVal 16 c1st (incIt 16 c1st.map c1st.start).1.curr =
      (none : Option Nat) from by decide] at hb
  exact Option.noConfusion hb

end CppDeque
